import Mathlib

/-!
Verification development for the agendacultural spreadsheet ingestion and
scrape-merge pipeline. The definitions below are a shallow embedding of the
TypeScript sources: `src/utils/googleSheets.ts` (primary, position-indexed
row normalizer, cache and sheet client), the label-indexed row normalizer of
the secondary ingestion path, `src/utils/scraper.ts` (page scraper and
merge/dedup engine) and the image URL transform of
`src/pages/events/[...slug].astro`. JavaScript machine behaviour that the
code relies on (the `Number` coercion on integer-formatted strings, the
`Date.UTC` calendar arithmetic with its 1900 two-digit-year rule, strict
equality, truthiness) is modelled explicitly; engine-dependent primitives
(the ISO date parser of `new Date(string)`, the current wall clock) are
passed in as environment parameters.
-/

instance [DecidableEq ε] [DecidableEq α] : DecidableEq (Except ε α)
  | .error a, .error b =>
    if h : a = b then .isTrue (by rw [h]) else .isFalse (by simp [h])
  | .error _, .ok _ => .isFalse (by simp)
  | .ok _, .error _ => .isFalse (by simp)
  | .ok a, .ok b =>
    if h : a = b then .isTrue (by rw [h]) else .isFalse (by simp [h])

/-- A JavaScript runtime value as it appears in sheet cells and records:
a string, an integer number, a `Date` object (millisecond value, `none`
for an Invalid Date), `null`, or `undefined` (an absent property). -/
inductive JVal where
  | str (s : String)
  | num (n : Int)
  | date (ms : Option Int)
  | null
  | undef
deriving Repr, DecidableEq

/-- Decimal value of a digit list, as `parseInt` computes it. -/
def digitsToNat (l : List Char) : Nat :=
  l.foldl (fun a c => a * 10 + (c.toNat - 48)) 0

/-- JavaScript whitespace, as trimmed by the `Number` coercion. -/
def isJsSpace (c : Char) : Bool :=
  c = ' ' || c = '\t' || c = '\n' || c = '\r'

/-- Splits a character list at every occurrence of the separator, exactly
as `String.prototype.split` with a one-character separator does. -/
def splitOnChar (sep : Char) : List Char → List (List Char)
  | [] => [[]]
  | c :: cs =>
    match splitOnChar sep cs with
    | [] => [[]]
    | g :: gs => if c = sep then [] :: g :: gs else (c :: g) :: gs

/-- `String.prototype.split` with a one-character separator. -/
def jsSplit (s : String) (sep : Char) : List String :=
  (splitOnChar sep s.toList).map String.mk

/-- Models the JavaScript `Number(string)` coercion, restricted to
integer-formatted strings: surrounding whitespace is trimmed, the empty
string coerces to `0`, an optional-sign decimal integer to its value, and
anything else to NaN (`none`). -/
def jsNumber (s : String) : Option Int :=
  let t := ((s.toList.dropWhile isJsSpace).reverse.dropWhile isJsSpace).reverse
  match t with
  | [] => some 0
  | '-' :: rest =>
    if rest ≠ [] ∧ rest.all Char.isDigit then some (-(digitsToNat rest : Int)) else none
  | '+' :: rest =>
    if rest ≠ [] ∧ rest.all Char.isDigit then some ((digitsToNat rest : Int)) else none
  | _ =>
    if t.all Char.isDigit then some ((digitsToNat t : Int)) else none

/-- Models indexing a JavaScript array of parsed numbers: a missing element
is `undefined`, which behaves as NaN (`none`) under the `isNaN` checks. -/
def jsIdx (l : List (Option Int)) (i : Nat) : Option Int :=
  (l.get? i).getD none

/-- Models `n.toString().padStart(2, "0")` on an integer. -/
def pad2 (n : Int) : String :=
  let s := toString n
  if s.length < 2 then "0" ++ s else s

/-- Days from the Unix epoch to the given proleptic Gregorian civil date
(Howard Hinnant days-from-civil algorithm, floor divisions; `m` is the
one-based month, `d` may lie outside the month and is carried as an
offset exactly as ECMAScript `MakeDay` does). -/
def daysFromCivil (y m d : Int) : Int :=
  let y1 := if m ≤ 2 then y - 1 else y
  let era := y1 / 400
  let yoe := y1 - era * 400
  let mp := (m + 9) % 12
  let doy := (153 * mp + 2) / 5 + d - 1
  let doe := yoe * 365 + yoe / 4 - yoe / 100 + doy
  era * 146097 + doe - 719468

/-- Milliseconds since the Unix epoch of the given UTC civil date and time
(one-based month, no two-digit-year adjustment). -/
def civilMs (y m d h mi s : Int) : Int :=
  (((daysFromCivil y m d) * 24 + h) * 60 + mi) * 60 * 1000 + s * 1000

/-- Models `Date.UTC(y, m, d, h, mi, s)` on integer arguments: the
ECMAScript two-digit-year rule maps `0 ≤ y ≤ 99` to `1900 + y`, the
zero-based month `m` is normalized into the year, and day/time components
carry over. -/
def jsDateUTC (y m d h mi s : Int) : Int :=
  let y1 := if 0 ≤ y ∧ y ≤ 99 then y + 1900 else y
  let y2 := y1 + m / 12
  let m2 := m % 12 + 1
  civilMs y2 m2 d h mi s

/-- The value stored for a string-valued cell by the label-indexed row
normalizer: either a `Date` object (`none` inside for an Invalid Date) or
the raw string. -/
inductive SVal where
  | jsdate (d : Option Int)
  | str (s : String)
deriving Repr, DecidableEq

/-- Stage (a) of the secondary normalizer: parse the formatted display
string of a cell as `dd/MM/yyyy HH:mm:ss`. Mirrors the source exactly:
the string is split on a space; when there is no second fragment the
destructured time part is `undefined` and splitting it throws (modelled
as `.error ()`); otherwise each numeric component is coerced with
`Number`, and any NaN component makes `Date.UTC` produce an Invalid
Date, which is stored as such. -/
def parseFormatted (f : String) : Except Unit (Option Int) :=
  match jsSplit f ' ' with
  | [] => .error ()
  | [_] => .error ()
  | dp :: tp :: _ =>
    let dn := (jsSplit dp '/').map jsNumber
    let tn := (jsSplit tp ':').map jsNumber
    match jsIdx dn 0, jsIdx dn 1, jsIdx dn 2, jsIdx tn 0, jsIdx tn 1, jsIdx tn 2 with
    | some d, some mo, some y, some h, some mi, some s =>
        .ok (some (jsDateUTC y (mo - 1) d h mi s))
    | _, _, _, _, _, _ => .ok none

/-- Runs a matcher at every suffix of the character list and returns the
first success, mirroring the leftmost-match rule of an unanchored
JavaScript regular expression search. -/
def scanFirst (f : List Char → Option α) : List Char → Option α
  | [] => none
  | c :: cs =>
    match f (c :: cs) with
    | some r => some r
    | none => scanFirst f cs

/-- Consumes the given literal characters from the front of the input. -/
def eatChars : List Char → List Char → Option (List Char)
  | [], cs => some cs
  | p :: ps, c :: cs => if c = p then eatChars ps cs else none
  | _ :: _, [] => none

/-- Takes exactly `n` characters from the front of the input. -/
def takeN : Nat → List Char → Option (List Char × List Char)
  | 0, cs => some ([], cs)
  | _ + 1, [] => none
  | n + 1, c :: cs => (takeN n cs).map (fun p => (c :: p.1, p.2))

/-- Matches exactly four decimal digits (the `\d{4}` atom). -/
def exact4 (cs : List Char) : Option (Nat × List Char) := do
  let (pre, rest) ← takeN 4 cs
  if pre.all Char.isDigit then some (digitsToNat pre, rest) else none

/-- Matches one or more decimal digits, maximal munch (the `\d+` atom). -/
def oneDigits (cs : List Char) : Option (Nat × List Char) :=
  let (ds, rest) := cs.span Char.isDigit
  if ds.isEmpty then none else some (digitsToNat ds, rest)

/-- Attempts the wrapped date-literal pattern
`Date\((\d{4}),(\d+),(\d+),(\d+),(\d+),(\d+)\)` at the start of the
input, returning the six captured numbers. -/
def tryDateLit (cs : List Char) : Option (Nat × Nat × Nat × Nat × Nat × Nat) := do
  let cs ← eatChars "Date(".toList cs
  let (y, cs) ← exact4 cs
  let cs ← eatChars [','] cs
  let (mo, cs) ← oneDigits cs
  let cs ← eatChars [','] cs
  let (d, cs) ← oneDigits cs
  let cs ← eatChars [','] cs
  let (h, cs) ← oneDigits cs
  let cs ← eatChars [','] cs
  let (mi, cs) ← oneDigits cs
  let cs ← eatChars [','] cs
  let (s, cs) ← oneDigits cs
  let _ ← eatChars [')'] cs
  some (y, mo, d, h, mi, s)

/-- Models `v.match(/Date\((\d{4}),(\d+),(\d+),(\d+),(\d+),(\d+)\)/)`:
the leftmost occurrence of the wrapped date literal. -/
def dateLitMatch (s : String) : Option (Nat × Nat × Nat × Nat × Nat × Nat) :=
  scanFirst tryDateLit s.toList

/-- Models `v.match(/^(\d{1,2}):(\d{2})$/)`: a bare `HH:MM` time string. -/
def timeMatch (s : String) : Option (Nat × Nat) :=
  match splitOnChar ':' s.toList with
  | [a, b] =>
    if (a.length = 1 ∨ a.length = 2) ∧ a.all Char.isDigit
        ∧ b.length = 2 ∧ b.all Char.isDigit then
      some (digitsToNat a, digitsToNat b)
    else none
  | _ => none

/-- Stages (b)-(e) of the secondary normalizer, the fallback chain taken
when the cell has no truthy formatted display field. `ip` is the
engine ISO parser `new Date(string)` (`none` for an Invalid Date) and
`mt` models merging an `HH:MM` time onto the current local date via
`new Date()` / `setHours` / `setMinutes` / `setSeconds(0)`. -/
def fallbackParse (ip : String → Option Int) (mt : Nat → Nat → Int) (v : String) : SVal :=
  match dateLitMatch v with
  | some (y, mo, d, h, mi, s) =>
      .jsdate (some (jsDateUTC (y : Int) (mo : Int) (d : Int) (h : Int) (mi : Int) (s : Int)))
  | none =>
    match ip v with
    | some ms => .jsdate (some ms)
    | none =>
      match timeMatch v with
      | some (h, mi) => .jsdate (some (mt h mi))
      | none => .str v

/-- The label-indexed row normalizer of the secondary ingestion path, for a
string-valued cell: when the display field `f` is truthy it is parsed as a
formatted date (stage a); otherwise the raw value runs through the
fallback chain (stages b-e). -/
def normalizeStringCell (ip : String → Option Int) (mt : Nat → Nat → Int)
    (fOpt : Option String) (v : String) : Except Unit SVal :=
  match fOpt with
  | some f =>
    if f = "" then .ok (fallbackParse ip mt v)
    else (parseFormatted f).map SVal.jsdate
  | none => .ok (fallbackParse ip mt v)

/-- A raw cell of the decoded gviz table: an optional raw value `v` and an
optional formatted display string `f`. -/
structure SheetCell where
  v : Option JVal
  f : Option String
deriving Repr, DecidableEq

/-- Models the expression `(cells[i]?.v || "")` being used with `.split`:
a string value is used as is, a falsy value (empty string, zero, `null`,
`undefined`, missing cell) coerces to the empty string, and calling
`.split` on any other truthy non-string value throws. -/
def jsStrOrEmpty : Option JVal → Except Unit String
  | some (.str s) => .ok s
  | some (.num n) => if n = 0 then .ok "" else .error ()
  | some (.date _) => .error ()
  | some .null => .ok ""
  | some .undef => .ok ""
  | none => .ok ""

/-- Total companion of `jsStrOrEmpty`, defined on the non-throwing cells. -/
def jsStrOrEmptyD : Option JVal → String
  | some (.str s) => s
  | _ => ""

/-- True when `jsStrOrEmpty` does not throw on this cell value. -/
def strSafe (v : Option JVal) : Bool :=
  match jsStrOrEmpty v with
  | .ok _ => true
  | .error _ => false

/-- Models the expression `cells[i]?.v || null`: a truthy value passes
through, any falsy value becomes `null`. -/
def jsTruthyOrNull : Option JVal → JVal
  | some (.str s) => if s = "" then .null else .str s
  | some (.num n) => if n = 0 then .null else .num n
  | some (.date d) => .date d
  | some .null => .null
  | some .undef => .null
  | none => .null

/-- Models `cells[i]?.v` (optional chaining, then the optional field). -/
def cellV (cells : List SheetCell) (i : Nat) : Option JVal :=
  match cells.get? i with
  | some c => c.v
  | none => none

/-- Date parsing of the primary row normalizer: split the cell on `/`,
coerce day, month and year with `Number`, and when all three pass the
`isNaN` checks build `Date.UTC(year, month - 1, day)` at midnight;
otherwise record `null`. -/
def parseDMY (s : String) : Option Int :=
  let parts := (jsSplit s '/').map jsNumber
  match jsIdx parts 0, jsIdx parts 1, jsIdx parts 2 with
  | some d, some m, some y => some (jsDateUTC y (m - 1) d 0 0 0)
  | _, _, _ => none

/-- Time parsing of the primary row normalizer: split on `:`, coerce both
components with `Number`, and when both pass the `isNaN` checks store the
zero-padded `HH:MM` string; otherwise record `null`. -/
def parseHM (s : String) : Option String :=
  let parts := (jsSplit s ':').map jsNumber
  match jsIdx parts 0, jsIdx parts 1 with
  | some h, some m => some (pad2 h ++ ":" ++ pad2 m)
  | _, _ => none

/-- The canonical record produced by the primary row normalizer: column 0
is the name, 1 the date, 2 the time, 3 the location, 4 the event type,
5 the external URL and 6 the flyer reference. -/
structure RowRec where
  evento : JVal
  date : Option Int
  time : Option String
  loc : JVal
  tipo_evento : JVal
  url : JVal
  flyer : JVal
deriving Repr, DecidableEq

/-- The primary, position-indexed row normalizer of `getGoogleSheetData`
in `googleSheets.ts`. The date and time cells are read through the
`(cells[i]?.v || "")` coercion, which throws on a truthy non-string
value; all other cells are read through `cells[i]?.v || null`. -/
def transformRow (cells : List SheetCell) : Except Unit RowRec :=
  match jsStrOrEmpty (cellV cells 1) with
  | .error e => .error e
  | .ok dateStr =>
    match jsStrOrEmpty (cellV cells 2) with
    | .error e => .error e
    | .ok timeStr =>
      .ok {
        evento := jsTruthyOrNull (cellV cells 0)
        date := if dateStr = "" then none else parseDMY dateStr
        time := if timeStr = "" then none else parseHM timeStr
        loc := jsTruthyOrNull (cellV cells 3)
        tipo_evento := jsTruthyOrNull (cellV cells 4)
        url := jsTruthyOrNull (cellV cells 5)
        flyer := jsTruthyOrNull (cellV cells 6) }

/-- Total companion of `transformRow`, valid on rows whose date and time
cells do not make the string coercion throw. -/
def transformRowOk (cells : List SheetCell) : RowRec :=
  let dateStr := jsStrOrEmptyD (cellV cells 1)
  let timeStr := jsStrOrEmptyD (cellV cells 2)
  { evento := jsTruthyOrNull (cellV cells 0)
    date := if dateStr = "" then none else parseDMY dateStr
    time := if timeStr = "" then none else parseHM timeStr
    loc := jsTruthyOrNull (cellV cells 3)
    tipo_evento := jsTruthyOrNull (cellV cells 4)
    url := jsTruthyOrNull (cellV cells 5)
    flyer := jsTruthyOrNull (cellV cells 6) }

/-- A row is safe when its date and time cells hold strings or falsy
values, so the primary normalizer cannot throw on it. -/
def rowSafe (cells : List SheetCell) : Bool :=
  strSafe (cellV cells 1) && strSafe (cellV cells 2)

/-- Models `rows.map(transform)` of the primary path: the callback runs on
each row in order and the first thrown exception aborts the whole map. -/
def transformTable : List (List SheetCell) → Except Unit (List RowRec)
  | [] => .ok []
  | r :: rs =>
    match transformRow r with
    | .error e => .error e
    | .ok x =>
      match transformTable rs with
      | .error e => .error e
      | .ok xs => .ok (x :: xs)

/-- A cache entry: the processed rows, the fetch timestamp in
milliseconds, and the cache version. -/
structure SheetCacheEntry where
  data : List RowRec
  timestamp : Int
  version : Nat
deriving Repr, DecidableEq

/-- The module-level mutable state of `googleSheets.ts`: the cache map
(modelled as an association list keyed by `sheetId ++ "-" ++ gid`), the
global version counter and the global last-modified timestamp. -/
structure SheetState where
  cache : List (String × SheetCacheEntry)
  currentVersion : Nat
  lastModified : Int
deriving Repr, DecidableEq

/-- Models `Map.get`: the entry stored for a key, if any. -/
def lookupC (m : List (String × SheetCacheEntry)) (k : String) : Option SheetCacheEntry :=
  (m.find? (fun p => p.1 == k)).map (fun p => p.2)

/-- Models `Map.set`: replaces the entry stored for a key wholesale. -/
def setC (m : List (String × SheetCacheEntry)) (k : String) (v : SheetCacheEntry) :
    List (String × SheetCacheEntry) :=
  (k, v) :: m.filter (fun p => !(p.1 == k))

/-- The environment of one `getGoogleSheetData` call: the text of the
fetched response (`none` when the network fetch rejects), the engine
JSON parser composed with the `json.table.rows` / `json.table.cols`
accesses (`none` when parsing throws or the shape is wrong), and the two
`Date.now()` readings (at entry and at cache-store time). -/
structure SheetEnv where
  fetchText : Option String
  parseJson : String → Option (List (List SheetCell))
  nowStart : Int
  nowStore : Int

/-- Models `text.substring(47).slice(0, -2)`: strip the fixed-length
anti-script prefix and the two-character suffix of the gviz response. -/
def stripResp (t : String) : String :=
  let l := t.toList.drop 47
  String.mk (l.take (l.length - 2))

/-- The fallible part of `getGoogleSheetData`: fetch, decode, transform.
Any failure inside the `try` block collapses to `.error ()`. -/
def sheetPipeline (env : SheetEnv) : Except Unit (List RowRec) :=
  match env.fetchText with
  | none => .error ()
  | some t =>
    match env.parseJson (stripResp t) with
    | none => .error ()
    | some rows => transformTable rows

/-- The staleness flag of `getGoogleSheetData`. The source computes it on
every call but never reads it: the fetch is attempted unconditionally. -/
def shouldRefresh (env : SheetEnv) (st : SheetState) (cacheKey : String) : Bool :=
  !(lookupC st.cache cacheKey).isSome || decide (env.nowStart - st.lastModified > 60000)

/-- The sheet client `getGoogleSheetData(sheetId, gid)`: on success the
rows are returned and the cache, version counter and last-modified
timestamp are updated; on any failure the last cached rows for the key
(or the empty list) are returned and the state is left untouched. -/
def getGoogleSheetData (env : SheetEnv) (sheetId gid : String) (st : SheetState) :
    List RowRec × SheetState :=
  let cacheKey := sheetId ++ "-" ++ gid
  match sheetPipeline env with
  | .error _ => (((lookupC st.cache cacheKey).map (fun e => e.data)).getD [], st)
  | .ok data =>
    let newVersion := st.currentVersion + 1
    (data,
      { cache := setC st.cache cacheKey ⟨data, env.nowStore, newVersion⟩
        currentVersion := newVersion
        lastModified := env.nowStore })

/-- The cache version invariant: every stored entry was written with a
version no greater than the global counter. -/
def InvCache (st : SheetState) : Prop :=
  ∀ p ∈ st.cache, p.2.version ≤ st.currentVersion

/-- The scraped event shape of `scraper.ts` (`EventData`). -/
structure EventData where
  eventName : String
  tags : List String
  startDate : String
  endDate : String
  location : String
  description : String
  image : String
  registrationLink : Option String
deriving Repr, DecidableEq

/-- A canonical record as the merge/dedup engine reads it: only the
`evento` and `horario_de_inicio` properties are accessed, each being
whatever JavaScript value the record carries (`undef` when the record
has no such property, as is the case for the primary-path records). -/
structure ExRec where
  evento : JVal
  horario_de_inicio : JVal
deriving Repr, DecidableEq

/-- JavaScript strict equality between an arbitrary value and a string:
true exactly when the value is that same string. -/
def jsEqStr : JVal → String → Bool
  | .str t, s => t == s
  | _, _ => false

/-- The duplicate test of `filterNewEvents`: some existing record has a
strictly equal `evento` and a strictly equal `horario_de_inicio`. -/
def isDupB (e : EventData) (ex : List ExRec) : Bool :=
  ex.any (fun c => jsEqStr c.evento e.eventName && jsEqStr c.horario_de_inicio e.startDate)

/-- The row-shaped record appended to the sheet for a new event. -/
structure SheetRowOut where
  evento : String
  tipo_de_evento : String
  horario_de_inicio : String
  horario_de_termino : String
  loc : String
  descricao : String
  flyer : String
  link_de_inscricao : String
deriving Repr, DecidableEq

/-- Interleaves a separator between the given pieces, as
`Array.prototype.join` does. -/
def joinWith (sep : List Char) : List (List Char) → List Char
  | [] => []
  | [x] => x
  | x :: y :: xs => x ++ sep ++ joinWith sep (y :: xs)

/-- The field remap of `filterNewEvents` onto the sheet schema; the
registration link defaults to the empty string when absent. -/
def toSheetRow (e : EventData) : SheetRowOut :=
  { evento := e.eventName
    tipo_de_evento := String.mk (joinWith ", ".toList (e.tags.map String.toList))
    horario_de_inicio := e.startDate
    horario_de_termino := e.endDate
    loc := e.location
    descricao := e.description
    flyer := e.image
    link_de_inscricao := e.registrationLink.getD "" }

/-- The merge/dedup engine `filterNewEvents`: keep the scraped events not
already present (by name and start time strict equality) and remap them
to the sheet schema. -/
def filterNewEvents (news : List EventData) (ex : List ExRec) : List SheetRowOut :=
  (news.filter (fun e => !isDupB e ex)).map toSheetRow

/-- One matched `.evento` element of the scraped agenda page, as cheerio
extracts it: trimmed title, trimmed combined date-time text, trimmed
description, and the image `src` attribute when present. -/
structure PageElement where
  title : String
  dateTime : String
  description : String
  imageSrc : Option String
deriving Repr, DecidableEq

/-- The environment of one scrape: the fetched and parsed page (`.error`
when the network fetch rejects) as the list of matched event elements,
and the engine primitive `new Date(s).toISOString()` (which throws on an
Invalid Date). -/
structure ScrapeEnv where
  page : Except Unit (List PageElement)
  toIso : String → Except Unit String

/-- Extraction of one scraped event: the date-time text splits on the
first space (a missing time part becomes the text `undefined` inside the
template literal), the combined `date T time :00Z` string is parsed and
serialized, the location is fixed, and a missing or empty image source
falls back to the default image. -/
def extractEvent (toIso : String → Except Unit String) (el : PageElement) :
    Except Unit EventData :=
  let parts := el.dateTime.splitOn " "
  let date := parts.headD ""
  let time := (parts.get? 1).getD "undefined"
  match toIso (date ++ "T" ++ time ++ ":00Z") with
  | .error e => .error e
  | .ok iso =>
    .ok { eventName := el.title
          tags := []
          startDate := iso
          endDate := iso
          location := "El Cabong"
          description := el.description
          image :=
            match el.imageSrc with
            | some s => if s = "" then "/images/astro-post.jpg" else s
            | none => "/images/astro-post.jpg"
          registrationLink := none }

/-- Extraction over all matched elements, in document order; the first
thrown exception aborts the scrape. -/
def extractAll (toIso : String → Except Unit String) :
    List PageElement → Except Unit (List EventData)
  | [] => .ok []
  | e :: es =>
    match extractEvent toIso e with
    | .error err => .error err
    | .ok d =>
      match extractAll toIso es with
      | .error err => .error err
      | .ok ds => .ok (d :: ds)

/-- The page scraper `scrapeEvents`: fetch the agenda page and extract an
event per matched element. A fetch rejection propagates; a page with
zero matched elements yields the empty list. -/
def scrapeEvents (env : ScrapeEnv) : Except Unit (List EventData) :=
  match env.page with
  | .error e => .error e
  | .ok elems => extractAll env.toIso elems

/-- Property access on a primary-path record as the dedup engine performs
it: `evento` holds the stored value and `horario_de_inicio` is absent,
hence `undefined`. -/
def recToExisting (r : RowRec) : ExRec :=
  { evento := r.evento, horario_de_inicio := .undef }

/-- The merge cycle `scrapeAndUpdateEvents`: scrape, read the canonical
sheet through the fail-soft sheet client, compute the delta, append it
(the append is a logging stub) and return the delta size. Any error
thrown inside is rethrown to the caller. -/
def scrapeAndUpdateEvents (senv : ScrapeEnv) (genv : SheetEnv) (st : SheetState) :
    Except Unit Nat × SheetState :=
  match scrapeEvents senv with
  | .error e => (.error e, st)
  | .ok events =>
    let res := getGoogleSheetData genv "1184qmC-7mpZtpg15R--il4K3tVxSTAcJUZxpWf9KFAs" "2043142206" st
    let newEvents := filterNewEvents events (res.1.map recToExisting)
    (.ok newEvents.length, res.2)

/-- Whether the second list begins with the first (the `startsWith`
test on the underlying characters). -/
def beginsWith : List Char → List Char → Bool
  | [], _ => true
  | _ :: _, [] => false
  | p :: ps, c :: cs => p = c && beginsWith ps cs

/-- `String.prototype.startsWith`. -/
def strStartsWith (s pre : String) : Bool :=
  beginsWith pre.toList s.toList

/-- True of characters in the regex class `[-\w]`. -/
def isTokenChar (c : Char) : Bool :=
  c.isAlphanum || c = '_' || c = '-'

/-- Attempts `[\/=]([-\w]{25,})` at the start of the input: a slash or
equals sign followed by a maximal run of at least 25 token characters;
returns the captured run. -/
def tryDriveToken : List Char → Option String
  | [] => none
  | c :: cs =>
    if c = '/' ∨ c = '=' then
      let ds := cs.takeWhile isTokenChar
      if ds.length ≥ 25 then some (String.mk ds) else none
    else none

/-- Models `flyer.match(/[\/=]([-\w]{25,})/)?.[1]`: the first capture of
the leftmost match, if any. -/
def findDriveToken (s : String) : Option String :=
  scanFirst tryDriveToken s.toList

/-- The image URL transform of `getStaticPaths` in
`src/pages/events/[...slug].astro`, on a string-or-absent flyer
reference: a falsy reference falls back to the default image, a
drive-hosted URL is rewritten around the extracted token (the text
`undefined` when no token matches), any other `http`-prefixed URL passes
through, and a bare filename is resolved under `/images/`. -/
def transformFlyer : Option String → String
  | none => "/images/astro-post.jpg"
  | some fl =>
    if fl = "" then "/images/astro-post.jpg"
    else if strStartsWith fl "https://drive.google.com" then
      "https://lh3.googleusercontent.com/d/" ++
        (match findDriveToken fl with
         | some t => t
         | none => "undefined") ++ "=w1000"
    else if strStartsWith fl "http" then fl
    else "/images/" ++ fl

/-- C1: in the label-indexed row normalizer, a string-valued cell is
decoded by attempting, in order: (a) the formatted display field parsed
as DD/MM/YYYY HH:MM:SS when that field is truthy, else (b) the wrapped
`Date(year,monthZeroBased,day,hour,minute,second)` literal, else (c) the
engine ISO parse, else (d) the bare `HH:MM` time merged onto the current
date, else (e) the raw string unchanged. Each stage falls through to the
next exactly when its own condition fails, the first successful stage is
returned untouched, and the final stage always produces a value. -/
theorem normalizeStringCell_chain (ip : String → Option Int) (mt : Nat → Nat → Int)
    (v : String) :
    (∀ f : String, f ≠ "" →
      normalizeStringCell ip mt (some f) v = (parseFormatted f).map SVal.jsdate)
    ∧ (∀ fOpt : Option String, fOpt = none ∨ fOpt = some "" →
      normalizeStringCell ip mt fOpt v = .ok (fallbackParse ip mt v))
    ∧ (∀ y mo d h mi s : Nat, dateLitMatch v = some (y, mo, d, h, mi, s) →
      fallbackParse ip mt v = .jsdate (some (jsDateUTC y mo d h mi s)))
    ∧ (dateLitMatch v = none → ∀ ms, ip v = some ms →
      fallbackParse ip mt v = .jsdate (some ms))
    ∧ (dateLitMatch v = none → ip v = none → ∀ h mi : Nat, timeMatch v = some (h, mi) →
      fallbackParse ip mt v = .jsdate (some (mt h mi)))
    ∧ (dateLitMatch v = none → ip v = none → timeMatch v = none →
      fallbackParse ip mt v = .str v) := by
  refine ⟨?_, ?_, ?_, ?_, ?_, ?_⟩
  · intro f hf
    simp [normalizeStringCell, hf]
  · rintro fOpt (rfl | rfl) <;> simp [normalizeStringCell]
  · intro y mo d h mi s hm
    simp [fallbackParse, hm]
  · intro hm ms hip
    simp [fallbackParse, hm, hip]
  · intro hm hip h mi htm
    simp [fallbackParse, hm, hip, htm]
  · intro hm hip htm
    simp [fallbackParse, hm, hip, htm]

/-- Witness for C1: the chain evaluated at concrete cells — a formatted
display field takes stage (a), and the bare string `20:00` with a failing
ISO parser reaches stage (d). -/
theorem normalizeStringCell_chain_witness :
    normalizeStringCell (fun _ => none) (fun h mi => ((h : Int) * 60 + mi) * 60000)
        (some "25/12/2024 20:00:00") "20:00"
      = Except.ok (SVal.jsdate (some 1735156800000))
    ∧ fallbackParse (fun _ => none) (fun h mi => ((h : Int) * 60 + mi) * 60000) "20:00"
      = SVal.jsdate (some 72000000) := by
  refine ⟨?_, ?_⟩
  · exact ((normalizeStringCell_chain (fun _ => none)
      (fun h mi => ((h : Int) * 60 + mi) * 60000) "20:00").1
      "25/12/2024 20:00:00" (by decide)).trans (by decide)
  · exact ((normalizeStringCell_chain (fun _ => none)
      (fun h mi => ((h : Int) * 60 + mi) * 60000) "20:00").2.2.2.2.1
      (by decide) rfl 20 0 (by decide)).trans (by decide)

/-- Helper: for a four-digit year of at least 100 and a one-based month in
range, `Date.UTC(y, m - 1, d, ...)` is the plain civil timestamp — the
two-digit-year rule and the month normalization are inert. -/
theorem jsDateUTC_eq_civil (y m d h mi s : Int) (hy : 100 ≤ y) (h1 : 1 ≤ m) (h2 : m ≤ 12) :
    jsDateUTC y (m - 1) d h mi s = civilMs y m d h mi s := by
  unfold jsDateUTC
  have hq : ¬(0 ≤ y ∧ y ≤ 99) := by omega
  have he : (m - 1) / 12 = 0 := by omega
  have hm : (m - 1) % 12 + 1 = m := by omega
  simp only [hq, if_false, he, hm, add_zero]

/-- C2 (counterexample): on the concrete row `25/12/2024` / `20:00` the
primary row normalizer does not produce the combined UTC instant
2024-12-25T20:00:00Z anywhere: the only timestamp in the record is
midnight UTC of the date, and the time survives only as the string
`20:00`. -/
theorem transformRow_no_combined_instant :
    transformRow [⟨some (.str "Show"), none⟩, ⟨some (.str "25/12/2024"), none⟩,
        ⟨some (.str "20:00"), none⟩]
      = .ok { evento := .str "Show", date := some (civilMs 2024 12 25 0 0 0),
              time := some "20:00", loc := .null, tipo_evento := .null,
              url := .null, flyer := .null }
    ∧ civilMs 2024 12 25 0 0 0 ≠ civilMs 2024 12 25 20 0 0 := by
  exact ⟨by decide, by decide⟩

/-- C2 (amended): for a date cell holding a slash-separated numeric
`DD/MM/YYYY` string (year at least 100, month in range) and a time cell
holding a colon-separated numeric `HH:MM` string, the primary row
normalizer produces one record whose `date` field is the UTC midnight of
the literal day, month and year, and whose `time` field is the
zero-padded `HH:MM` string of the literal hour and minute; no combined
date-time instant is produced. -/
theorem transformRow_literal (cells : List SheetCell) (ds ts a b c hh mm : String)
    (d m y h mi : Int)
    (hds : jsStrOrEmpty (cellV cells 1) = .ok ds)
    (hts : jsStrOrEmpty (cellV cells 2) = .ok ts)
    (hdsne : ds ≠ "")
    (htsne : ts ≠ "")
    (hsplit : jsSplit ds '/' = [a, b, c])
    (ha : jsNumber a = some d) (hb : jsNumber b = some m) (hc : jsNumber c = some y)
    (hm1 : 1 ≤ m) (hm2 : m ≤ 12) (hy : 100 ≤ y)
    (htsplit : jsSplit ts ':' = [hh, mm])
    (hhh : jsNumber hh = some h) (hmm : jsNumber mm = some mi) :
    transformRow cells = .ok
      { evento := jsTruthyOrNull (cellV cells 0)
        date := some (civilMs y m d 0 0 0)
        time := some (pad2 h ++ ":" ++ pad2 mi)
        loc := jsTruthyOrNull (cellV cells 3)
        tipo_evento := jsTruthyOrNull (cellV cells 4)
        url := jsTruthyOrNull (cellV cells 5)
        flyer := jsTruthyOrNull (cellV cells 6) } := by
  have hq := jsDateUTC_eq_civil y m d 0 0 0 hy hm1 hm2
  simp [transformRow, hds, hts, hdsne, htsne, parseDMY, parseHM, hsplit, htsplit,
    jsIdx, ha, hb, hc, hhh, hmm, hq]

/-- Witness for C2 (amended): the concrete row `25/12/2024` / `20:00`. -/
theorem transformRow_literal_witness :
    transformRow [⟨some (.str "Show"), none⟩, ⟨some (.str "25/12/2024"), none⟩,
        ⟨some (.str "20:00"), none⟩]
      = .ok { evento := .str "Show", date := some (civilMs 2024 12 25 0 0 0),
              time := some (pad2 20 ++ ":" ++ pad2 0), loc := .null,
              tipo_evento := .null, url := .null, flyer := .null } := by
  exact (transformRow_literal
      [⟨some (.str "Show"), none⟩, ⟨some (.str "25/12/2024"), none⟩,
        ⟨some (.str "20:00"), none⟩]
      "25/12/2024" "20:00" "25" "12" "2024" "20" "00" 25 12 2024 20 0
      (by decide) (by decide) (by decide) (by decide) (by decide) (by decide)
      (by decide) (by decide) (by decide) (by decide) (by decide) (by decide)
      (by decide) (by decide)).trans (by decide)

/-- Helper: on a cell value that is a string or falsy, the string coercion
of the primary normalizer returns its total companion. -/
theorem jsStrOrEmpty_of_safe (v : Option JVal) (h : strSafe v = true) :
    jsStrOrEmpty v = .ok (jsStrOrEmptyD v) := by
  cases v with
  | none => rfl
  | some j =>
    cases j with
    | str s => rfl
    | num n =>
      by_cases hn : n = 0
      · simp [jsStrOrEmpty, jsStrOrEmptyD, hn]
      · exfalso
        simp [strSafe, jsStrOrEmpty, hn] at h
    | date ms =>
      exfalso
      simp [strSafe, jsStrOrEmpty] at h
    | null => rfl
    | undef => rfl

/-- Helper: the primary normalizer never throws on a safe row. -/
theorem transformRow_safe (cells : List SheetCell) (h : rowSafe cells = true) :
    transformRow cells = .ok (transformRowOk cells) := by
  have h12 : strSafe (cellV cells 1) = true ∧ strSafe (cellV cells 2) = true := by
    simpa [rowSafe, Bool.and_eq_true] using h
  simp [transformRow, jsStrOrEmpty_of_safe _ h12.1, jsStrOrEmpty_of_safe _ h12.2,
    transformRowOk]

/-- Helper: the table transform of the primary path succeeds on a table of
safe rows, producing exactly the per-row records. -/
theorem transformTable_ok (rows : List (List SheetCell))
    (hsafe : ∀ r ∈ rows, rowSafe r = true) :
    transformTable rows = .ok (rows.map transformRowOk) := by
  induction rows with
  | nil => rfl
  | cons r rs ih =>
    have hr := hsafe r (by simp)
    have hrs : ∀ x ∈ rs, rowSafe x = true := fun x hx => hsafe x (by simp [hx])
    simp [transformTable, transformRow_safe r hr, ih hrs]

/-- Helper: the primary date parse records `null` as soon as any of the
first three slash-separated components coerces to NaN or is missing. -/
theorem parseDMY_none (s : String)
    (h : jsIdx ((jsSplit s '/').map jsNumber) 0 = none
      ∨ jsIdx ((jsSplit s '/').map jsNumber) 1 = none
      ∨ jsIdx ((jsSplit s '/').map jsNumber) 2 = none) :
    parseDMY s = none := by
  unfold parseDMY
  cases e0 : jsIdx ((jsSplit s '/').map jsNumber) 0 <;>
    cases e1 : jsIdx ((jsSplit s '/').map jsNumber) 1 <;>
    cases e2 : jsIdx ((jsSplit s '/').map jsNumber) 2 <;>
    simp_all

/-- C7: on a table of rows whose date and time cells hold strings (or
falsy values), the primary row normalizer produces exactly one record per
input row — the i-th output comes from the i-th input alone — and a row
whose DD/MM/YYYY date string has a non-numeric (or missing) component
gets a `null` date while every other field of that row is still populated
from its cells. -/
theorem transformTable_per_row (rows : List (List SheetCell))
    (hsafe : ∀ r ∈ rows, rowSafe r = true) :
    transformTable rows = .ok (rows.map transformRowOk)
    ∧ (rows.map transformRowOk).length = rows.length
    ∧ (∀ cells : List SheetCell,
        (jsIdx ((jsSplit (jsStrOrEmptyD (cellV cells 1)) '/').map jsNumber) 0 = none
          ∨ jsIdx ((jsSplit (jsStrOrEmptyD (cellV cells 1)) '/').map jsNumber) 1 = none
          ∨ jsIdx ((jsSplit (jsStrOrEmptyD (cellV cells 1)) '/').map jsNumber) 2 = none) →
        (transformRowOk cells).date = none
        ∧ (transformRowOk cells).evento = jsTruthyOrNull (cellV cells 0)
        ∧ (transformRowOk cells).time = (if jsStrOrEmptyD (cellV cells 2) = "" then none
            else parseHM (jsStrOrEmptyD (cellV cells 2)))
        ∧ (transformRowOk cells).loc = jsTruthyOrNull (cellV cells 3)
        ∧ (transformRowOk cells).tipo_evento = jsTruthyOrNull (cellV cells 4)
        ∧ (transformRowOk cells).url = jsTruthyOrNull (cellV cells 5)
        ∧ (transformRowOk cells).flyer = jsTruthyOrNull (cellV cells 6)) := by
  refine ⟨transformTable_ok rows hsafe, by simp, ?_⟩
  intro cells h
  refine ⟨?_, rfl, rfl, rfl, rfl, rfl, rfl⟩
  have hd := parseDMY_none _ h
  simp [transformRowOk, hd]

/-- Witness for C7: a three-row fixture whose middle row has the malformed
date `ab/cd/2024` yields three records, with only that row's date null. -/
theorem transformTable_per_row_witness :
    transformTable
        [[⟨some (.str "A"), none⟩, ⟨some (.str "01/01/2024"), none⟩,
          ⟨some (.str "10:00"), none⟩, ⟨some (.str "LocA"), none⟩],
         [⟨some (.str "B"), none⟩, ⟨some (.str "ab/cd/2024"), none⟩,
          ⟨some (.str "11:00"), none⟩, ⟨some (.str "LocB"), none⟩],
         [⟨some (.str "C"), none⟩, ⟨some (.str "02/01/2024"), none⟩,
          ⟨some (.str "12:00"), none⟩, ⟨some (.str "LocC"), none⟩]]
      = .ok
        [{ evento := .str "A", date := some 1704067200000, time := some "10:00",
           loc := .str "LocA", tipo_evento := .null, url := .null, flyer := .null },
         { evento := .str "B", date := none, time := some "11:00",
           loc := .str "LocB", tipo_evento := .null, url := .null, flyer := .null },
         { evento := .str "C", date := some 1704153600000, time := some "12:00",
           loc := .str "LocC", tipo_evento := .null, url := .null, flyer := .null }]
    ∧ (transformRowOk [⟨some (.str "B"), none⟩, ⟨some (.str "ab/cd/2024"), none⟩,
          ⟨some (.str "11:00"), none⟩, ⟨some (.str "LocB"), none⟩]).date = none := by
  refine ⟨?_, ?_⟩
  · exact ((transformTable_per_row
      [[⟨some (.str "A"), none⟩, ⟨some (.str "01/01/2024"), none⟩,
        ⟨some (.str "10:00"), none⟩, ⟨some (.str "LocA"), none⟩],
       [⟨some (.str "B"), none⟩, ⟨some (.str "ab/cd/2024"), none⟩,
        ⟨some (.str "11:00"), none⟩, ⟨some (.str "LocB"), none⟩],
       [⟨some (.str "C"), none⟩, ⟨some (.str "02/01/2024"), none⟩,
        ⟨some (.str "12:00"), none⟩, ⟨some (.str "LocC"), none⟩]]
      (by decide)).1).trans (by decide)
  · exact ((transformTable_per_row [] (by simp)).2.2
      [⟨some (.str "B"), none⟩, ⟨some (.str "ab/cd/2024"), none⟩,
        ⟨some (.str "11:00"), none⟩, ⟨some (.str "LocB"), none⟩]
      (Or.inl (by decide))).1

/-- Helper: a successful cache lookup comes from a stored pair. -/
theorem lookupC_mem {m : List (String × SheetCacheEntry)} {k : String} {e : SheetCacheEntry}
    (h : lookupC m k = some e) : (k, e) ∈ m := by
  unfold lookupC at h
  cases hf : m.find? (fun p => p.1 == k) with
  | none => simp [hf] at h
  | some p =>
    rw [hf] at h
    have hm := List.mem_of_find?_eq_some hf
    have hp := List.find?_some hf
    obtain ⟨k1, e1⟩ := p
    simp at hp h
    subst hp
    subst h
    exact hm

/-- Helper: a lookup immediately after a set finds the stored entry. -/
theorem lookupC_setC (m : List (String × SheetCacheEntry)) (k : String) (v : SheetCacheEntry) :
    lookupC (setC m k v) k = some v := by
  simp [lookupC, setC, List.find?]

/-- C3: whenever the fetch fails or the response text does not decode
(for example because it lacks the expected prefix/suffix framing and the
stripped text is not valid JSON), the sheet client does not throw: it
returns the cached rows for the key when a cache entry exists and the
empty sequence otherwise, leaving the state untouched. -/
theorem sheetClient_failSoft (env : SheetEnv) (sheetId gid : String) (st : SheetState)
    (h : env.fetchText = none
      ∨ (∃ t, env.fetchText = some t ∧ env.parseJson (stripResp t) = none)) :
    getGoogleSheetData env sheetId gid st
      = (((lookupC st.cache (sheetId ++ "-" ++ gid)).map (fun e => e.data)).getD [], st) := by
  have hp : sheetPipeline env = .error () := by
    rcases h with h | ⟨t, ht, hj⟩
    · simp [sheetPipeline, h]
    · simp [sheetPipeline, ht, hj]
  simp [getGoogleSheetData, hp]

/-- Witness for C3: a framing-mismatched response text with a populated
cache returns the cached rows and preserves the state. -/
theorem sheetClient_failSoft_witness :
    getGoogleSheetData ⟨some "<html>bad", fun _ => none, 0, 0⟩ "s" "0"
        ⟨[("s-0",
           ⟨[{ evento := .str "X", date := none, time := none, loc := .null,
               tipo_evento := .null, url := .null, flyer := .null }], 1, 1⟩)], 1, 0⟩
      = ([{ evento := .str "X", date := none, time := none, loc := .null,
            tipo_evento := .null, url := .null, flyer := .null }],
         ⟨[("s-0",
            ⟨[{ evento := .str "X", date := none, time := none, loc := .null,
                tipo_evento := .null, url := .null, flyer := .null }], 1, 1⟩)], 1, 0⟩) := by
  exact (sheetClient_failSoft ⟨some "<html>bad", fun _ => none, 0, 0⟩ "s" "0"
      ⟨[("s-0",
         ⟨[{ evento := .str "X", date := none, time := none, loc := .null,
             tipo_evento := .null, url := .null, flyer := .null }], 1, 1⟩)], 1, 0⟩
      (Or.inr ⟨"<html>bad", rfl, rfl⟩)).trans (by decide)

/-- C9: a failed call (fetch, decode or row transform throws) leaves the
module state exactly as it was: same cache entries, same version counter,
same last-modified timestamp. -/
theorem getGoogleSheetData_failure_preserves_state (env : SheetEnv) (sheetId gid : String)
    (st : SheetState) (h : sheetPipeline env = .error ()) :
    (getGoogleSheetData env sheetId gid st).2 = st := by
  simp [getGoogleSheetData, h]

/-- Witness for C9: a response whose decoded table makes the row transform
throw (a truthy non-string date cell) leaves a nonempty state unchanged. -/
theorem getGoogleSheetData_failure_preserves_state_witness :
    (getGoogleSheetData
        ⟨some "x", fun _ => some [[⟨some (.str "E"), none⟩, ⟨some (.num 7), none⟩]], 0, 0⟩
        "s" "0" ⟨[], 3, 9⟩).2 = ⟨[], 3, 9⟩ := by
  exact getGoogleSheetData_failure_preserves_state
    ⟨some "x", fun _ => some [[⟨some (.str "E"), none⟩, ⟨some (.num 7), none⟩]], 0, 0⟩
    "s" "0" ⟨[], 3, 9⟩ (by decide)

/-- C6: under the cache version invariant, a successful refresh stores the
fresh rows for the key so that an immediate get returns exactly those rows
with a version strictly greater than any entry previously stored for the
key; the counter increments on success, is unchanged on failure, and the
invariant is preserved. -/
theorem cache_set_get_version (env : SheetEnv) (sheetId gid : String) (st : SheetState)
    (hInv : InvCache st) :
    (∀ data, sheetPipeline env = .ok data →
      (getGoogleSheetData env sheetId gid st).1 = data
      ∧ lookupC (getGoogleSheetData env sheetId gid st).2.cache (sheetId ++ "-" ++ gid)
          = some ⟨data, env.nowStore, st.currentVersion + 1⟩
      ∧ (∀ eOld, lookupC st.cache (sheetId ++ "-" ++ gid) = some eOld →
          eOld.version < st.currentVersion + 1)
      ∧ (getGoogleSheetData env sheetId gid st).2.currentVersion = st.currentVersion + 1)
    ∧ (sheetPipeline env = .error () →
        (getGoogleSheetData env sheetId gid st).2.currentVersion = st.currentVersion)
    ∧ InvCache (getGoogleSheetData env sheetId gid st).2 := by
  refine ⟨?_, ?_, ?_⟩
  · intro data hok
    refine ⟨by simp [getGoogleSheetData, hok], ?_, ?_, by simp [getGoogleSheetData, hok]⟩
    · simp only [getGoogleSheetData, hok]
      exact lookupC_setC st.cache (sheetId ++ "-" ++ gid) _
    · intro eOld hOld
      have hm := lookupC_mem hOld
      have h2 : eOld.version ≤ st.currentVersion := hInv _ hm
      omega
  · intro herr
    simp [getGoogleSheetData, herr]
  · cases hp : sheetPipeline env with
    | error e =>
      simp only [getGoogleSheetData, hp]
      exact hInv
    | ok data =>
      simp only [getGoogleSheetData, hp]
      intro p hmem
      simp only [setC] at hmem
      rcases List.mem_cons.mp hmem with h1 | h2
      · subst h1
        show (_ : SheetCacheEntry).version ≤ st.currentVersion + 1
        simp
      · have h3 : p.2.version ≤ st.currentVersion := hInv p (List.mem_of_mem_filter h2)
        show p.2.version ≤ st.currentVersion + 1
        omega

/-- Witness for C6: a successful refresh on the empty state stores the
rows under version 1 and returns them. -/
theorem cache_set_get_version_witness :
    (getGoogleSheetData ⟨some "", fun _ => some [], 0, 5⟩ "a" "0" ⟨[], 0, 0⟩).1 = []
    ∧ lookupC (getGoogleSheetData ⟨some "", fun _ => some [], 0, 5⟩ "a" "0"
        ⟨[], 0, 0⟩).2.cache ("a" ++ "-" ++ "0") = some ⟨[], 5, 0 + 1⟩
    ∧ (getGoogleSheetData ⟨some "", fun _ => some [], 0, 5⟩ "a" "0"
        ⟨[], 0, 0⟩).2.currentVersion = 0 + 1 := by
  have h := (cache_set_get_version ⟨some "", fun _ => some [], 0, 5⟩ "a" "0" ⟨[], 0, 0⟩
      (by simp [InvCache])).1 [] (by decide)
  exact ⟨h.1, h.2.1, h.2.2.2⟩

/-- Helper: strict equality of a JavaScript value against a string holds
exactly when the value is that string. -/
theorem jsEqStr_iff (v : JVal) (s : String) : jsEqStr v s = true ↔ v = .str s := by
  cases v <;> simp [jsEqStr]

/-- C4: the delta of the merge/dedup engine drops a scraped event exactly
when some canonical record has a strictly equal event name and a strictly
equal stored start-time representation; if either differs (including a
non-string stored representation) the event is kept. -/
theorem filterNewEvents_dedup (news : List EventData) (ex : List ExRec) (e : EventData) :
    filterNewEvents (e :: news) ex
      = (if isDupB e ex then filterNewEvents news ex
         else toSheetRow e :: filterNewEvents news ex)
    ∧ (isDupB e ex = true ↔ ∃ c ∈ ex, c.evento = JVal.str e.eventName
        ∧ c.horario_de_inicio = JVal.str e.startDate) := by
  constructor
  · by_cases h : isDupB e ex
    · simp [filterNewEvents, List.filter_cons, h]
    · simp [filterNewEvents, List.filter_cons, h]
  · simp [isDupB, List.any_eq_true, Bool.and_eq_true, jsEqStr_iff]

/-- C10: the delta is order-preserving — it is a subsequence of the
scraped input remapped to the sheet schema, consisting exactly of the
non-duplicate events in scrape order, with the registration link
defaulting to the empty string when absent. -/
theorem filterNewEvents_order (news : List EventData) (ex : List ExRec) :
    List.Sublist (filterNewEvents news ex) (news.map toSheetRow)
    ∧ filterNewEvents news ex
        = (news.filter (fun e => !isDupB e ex)).map toSheetRow
    ∧ (∀ e : EventData,
        (toSheetRow { e with registrationLink := none }).link_de_inscricao = "") := by
  refine ⟨?_, rfl, ?_⟩
  · exact List.Sublist.map toSheetRow (List.filter_sublist news)
  · intro e
    rfl

/-- C5 (counterexample): a fetched page in which the event selector
matches zero elements does not raise an error — `scrapeEvents` returns
the empty sequence and the enclosing merge cycle completes successfully
with zero new events. -/
theorem scrapeEvents_zero_elements_ok :
    scrapeEvents ⟨.ok [], fun _ => .error ()⟩ = .ok []
    ∧ (scrapeAndUpdateEvents ⟨.ok [], fun _ => .error ()⟩
        ⟨none, fun _ => none, 0, 0⟩ ⟨[], 0, 0⟩).1 = .ok 0 := by
  exact ⟨rfl, rfl⟩

/-- C5 (amended): a network fetch error propagates as an error from
`scrapeEvents` and aborts `scrapeAndUpdateEvents` (leaving the sheet
state untouched), while a selector mismatch matching zero elements fails
soft: `scrapeEvents` returns the empty sequence. -/
theorem scrape_failure_propagation :
    (∀ (senv : ScrapeEnv) (genv : SheetEnv) (st : SheetState), senv.page = .error () →
      scrapeEvents senv = .error ()
      ∧ (scrapeAndUpdateEvents senv genv st).1 = .error ()
      ∧ (scrapeAndUpdateEvents senv genv st).2 = st)
    ∧ (∀ senv : ScrapeEnv, senv.page = .ok [] → scrapeEvents senv = .ok []) := by
  constructor
  · intro senv genv st h
    refine ⟨?_, ?_, ?_⟩ <;> simp [scrapeAndUpdateEvents, scrapeEvents, h]
  · intro senv h
    simp [scrapeEvents, h, extractAll]

/-- Witness for C5 (amended): a rejected fetch propagates out of both the
scraper and the merge cycle. -/
theorem scrape_failure_propagation_witness :
    scrapeEvents ⟨.error (), fun _ => .ok ""⟩ = .error ()
    ∧ (scrapeAndUpdateEvents ⟨.error (), fun _ => .ok ""⟩ ⟨none, fun _ => none, 0, 0⟩
        ⟨[], 0, 0⟩).1 = .error () := by
  have h := scrape_failure_propagation.1 ⟨.error (), fun _ => .ok ""⟩
      ⟨none, fun _ => none, 0, 0⟩ ⟨[], 0, 0⟩ rfl
  exact ⟨h.1, h.2.1⟩

/-- Helper: a list beginning with `p ++ q` begins with `p`. -/
theorem beginsWith_of_append (p q l : List Char) (h : beginsWith (p ++ q) l = true) :
    beginsWith p l = true := by
  induction p generalizing l with
  | nil => rfl
  | cons a ps ih =>
    cases l with
    | nil => simp [beginsWith] at h
    | cons b bs =>
      simp [beginsWith, Bool.and_eq_true] at h ⊢
      exact ⟨h.1, ih bs h.2⟩

/-- C8: the image URL transform rewrites a drive-hosted reference whose
token (25+ word characters after a slash or equals sign) is found into
the content-delivery URL built around that exact token; any other
`http`-prefixed URL passes through unchanged; a bare filename resolves
under `/images/`; an absent reference falls back to the fixed default. -/
theorem transformFlyer_cases :
    (∀ fl t, strStartsWith fl "https://drive.google.com" = true →
      findDriveToken fl = some t →
      transformFlyer (some fl) = "https://lh3.googleusercontent.com/d/" ++ t ++ "=w1000")
    ∧ (∀ u, strStartsWith u "http" = true →
        strStartsWith u "https://drive.google.com" = false →
        transformFlyer (some u) = u)
    ∧ (∀ u, u ≠ "" → strStartsWith u "http" = false →
        transformFlyer (some u) = "/images/" ++ u)
    ∧ transformFlyer none = "/images/astro-post.jpg" := by
  have himp : ∀ u : String, strStartsWith u "https://drive.google.com" = true →
      strStartsWith u "http" = true := by
    intro u hd
    have he : ("http".toList ++ "s://drive.google.com".toList)
        = "https://drive.google.com".toList := by decide
    have hb : beginsWith ("http".toList ++ "s://drive.google.com".toList) u.toList = true := by
      rw [he]
      exact hd
    exact beginsWith_of_append _ _ _ hb
  refine ⟨?_, ?_, ?_, rfl⟩
  · intro fl t h1 h2
    have hne : fl ≠ "" := by
      rintro rfl
      exact absurd h1 (by decide)
    simp [transformFlyer, hne, h1, h2]
  · intro u h1 h2
    have hne : u ≠ "" := by
      rintro rfl
      exact absurd h1 (by decide)
    simp [transformFlyer, hne, h1, h2]
  · intro u hne h1
    have h2 : strStartsWith u "https://drive.google.com" = false := by
      cases hb : strStartsWith u "https://drive.google.com" with
      | false => rfl
      | true => exact absurd (himp u hb) (by simp [h1])
    simp [transformFlyer, hne, h1, h2]

/-- Witness for C8: a drive URL carrying a 25-character token, an
ordinary absolute URL, and a bare filename. -/
theorem transformFlyer_cases_witness :
    transformFlyer (some "https://drive.google.com/file/d/1234567890123456789012345/view")
      = "https://lh3.googleusercontent.com/d/" ++ "1234567890123456789012345" ++ "=w1000"
    ∧ transformFlyer (some "https://example.com/p.jpg") = "https://example.com/p.jpg"
    ∧ transformFlyer (some "poster.jpg") = "/images/" ++ "poster.jpg" := by
  refine ⟨?_, ?_, ?_⟩
  · exact transformFlyer_cases.1
      "https://drive.google.com/file/d/1234567890123456789012345/view"
      "1234567890123456789012345" (by decide) (by decide)
  · exact transformFlyer_cases.2.1 "https://example.com/p.jpg" (by decide) (by decide)
  · exact transformFlyer_cases.2.2.1 "poster.jpg" (by decide) (by decide)
